import Mathlib

/-!
Verification development for the eBPF abstract-interpretation verifier
(analyzer core: `src/crab/abs_transformer.hpp`, `src/assertions.cpp`,
`src/crab_verifier.cpp`, with constants from `vm/constraints.hpp` and
program-type data from `src/gpl/spec_type_descriptors.hpp`).

The abstract transformer in the source is a C++ template over an abstract
domain `AbsDomain`, with a virtual `require` hook that the property checker
overrides.  We embed it the same way: the transformer functions are
parameterized by a record of domain operations (`TOps`) together with a
`require` strategy.  Two instances are used:

* a free term domain `Dom` that records, as a syntax tree, exactly the
  domain operations the transformer performs, with a concretization
  `gamma : Dom → Set Env` into sets of integer environments;
* a finite collecting domain `List Env` (a finite set of concrete
  environments) with decidable `entail` / `intersect` / `is_bottom`,
  used to run the assertion checker on concrete inputs.

Machine integers are modelled as unbounded `Int`; the source transformer
itself manipulates arbitrary-precision numbers (crab `number_t`), so this
is faithful.  The type-encoding constants live in a header that is not
part of the sources (`crab/types.hpp`); they are modelled from the spec's
ordering `UNINIT < NUM < CTX < STACK < PACKET < SHARED`, with `T_MAP`
placed between `UNINIT` and `NUM` as dictated by the uses in
`abs_transformer.hpp` (`TypeGroup::non_map_fd` is `t >= T_NUM`).
-/

namespace Ebpf

/-- Registers of the virtual machine, `Reg` in `asm_syntax.hpp`. -/
structure Reg where
  v : Nat
deriving DecidableEq, Repr

/-- Register-or-immediate operand, `Value = std::variant<Imm, Reg>`. -/
inductive Value where
  | imm (v : Int)
  | reg (r : Reg)
deriving DecidableEq, Repr

/-- Type-encoding constants, modelled from the spec ordering
(`crab/types.hpp` is not among the sources):
`UNINIT < MAP < NUM < CTX < STACK < PACKET < SHARED`, where any value
strictly above `T_SHARED` encodes the size of a shared (map-value) region. -/
def T_UNINIT : Int := -6

/-- Map-fd kind value (below `T_NUM`, so `non_map_fd = (t >= T_NUM)` excludes it). -/
def T_MAP : Int := -5

/-- Numeric kind value. -/
def T_NUM : Int := -4

/-- Context-pointer kind value; `is_pointer` is `t >= T_CTX`. -/
def T_CTX : Int := -3

/-- Stack-pointer kind value. -/
def T_STACK : Int := -2

/-- Packet-pointer kind value. -/
def T_PACKET : Int := -1

/-- Shared threshold: kinds strictly above this encode shared-region sizes. -/
def T_SHARED : Int := 0

/-- Stack size in bytes (`constexpr int STACK_SIZE = 512` in `vm/constraints.hpp`). -/
def STACK_SIZE : Int := 512

/-- Maximal packet offset, `constexpr int MAX_PACKET_OFF = 0xffff`. -/
def MAX_PACKET_OFF : Int := 65535

/-- Maximal pointer base, `PTR_MAX = INT_MAX - MAX_PACKET_OFF`. -/
def PTR_MAX : Int := 2147483647 - 65535

/-- Numeric variables of the abstract state: the per-register triple
(`reg_value`, `reg_offset`, `reg_type` in `abs_transformer.hpp`) plus the
distinguished `packet_size`, `meta_offset`, `map_key_size`,
`map_value_size` variables of `variable_t`. -/
inductive Var where
  | rval (i : Nat)
  | roff (i : Nat)
  | rtyp (i : Nat)
  | packetSize
  | metaOffset
  | mapKeySize
  | mapValueSize
deriving DecidableEq, Repr

/-- A concrete environment: one integer per numeric variable. -/
abbrev Env := Var → Int

/-- Linear expression: a sum of (coefficient-one) variables plus a constant.
This is enough to express every linear expression the transformer builds
(`reg_offset(r) + offset`, `lb + width`, a single variable, a constant). -/
structure LinExp where
  vars : List Var
  k : Int
deriving DecidableEq, Repr

/-- Expression consisting of a single variable. -/
def LinExp.v (x : Var) : LinExp := ⟨[x], 0⟩

/-- Constant expression. -/
def LinExp.c (k : Int) : LinExp := ⟨[], k⟩

/-- Add a constant to a linear expression. -/
def LinExp.addK (e : LinExp) (k : Int) : LinExp := ⟨e.vars, e.k + k⟩

/-- Add a variable to a linear expression. -/
def LinExp.addV (e : LinExp) (x : Var) : LinExp := ⟨e.vars ++ [x], e.k⟩

/-- Evaluate a linear expression in an environment. -/
def LinExp.eval (e : LinExp) (ρ : Env) : Int := (e.vars.map ρ).sum + e.k

/-- Linear constraints (`linear_constraint_t`): an equality, a disequation,
or an inequality between two linear expressions (the crab representation
normalizes to `exp ⋈ 0`; we keep both sides, which is equivalent). -/
inductive Cst where
  | le (a b : LinExp)
  | eqC (a b : LinExp)
  | neqC (a b : LinExp)
deriving DecidableEq, Repr

/-- The dsl_syntax comparison `a >= b`. -/
def Cst.ge (a b : LinExp) : Cst := .le b a

/-- The dsl_syntax comparison `a > b`, over integers `a >= b + 1`. -/
def Cst.gt (a b : LinExp) : Cst := .le (b.addK 1) a

/-- The dsl_syntax comparison `a < b`, over integers `a + 1 <= b`. -/
def Cst.lt (a b : LinExp) : Cst := .le (a.addK 1) b

/-- Satisfaction of a constraint by an environment. -/
def Cst.holds (c : Cst) (ρ : Env) : Bool :=
  match c with
  | .le a b => decide (a.eval ρ ≤ b.eval ρ)
  | .eqC a b => decide (a.eval ρ = b.eval ρ)
  | .neqC a b => decide (a.eval ρ ≠ b.eval ρ)

/-- Whether a constraint mentions no variable at all. -/
def Cst.varFree (c : Cst) : Bool :=
  match c with
  | .le a b | .eqC a b | .neqC a b => a.vars.isEmpty && b.vars.isEmpty

/-- Contradiction test `linear_constraint_t::is_contradiction()`: the
constraint is a variable-free falsehood (its truth value does not depend on the
environment).  The crab header is not among the sources; this is the
standard meaning used by the checker (spec: a contradiction diagnostic is
emitted when the assertion is provably false by itself). -/
def Cst.isContra (c : Cst) : Bool := c.varFree && !(c.holds fun _ => 0)

/-- Binary operators of the numeric domain (`arith_binop_t` and
`bitwise_binop_t`). -/
inductive Binop where
  | ADD | SUB | MUL | SDIV | UDIV | SREM | UREM
  | AND | OR | XOR | SHL | LSHR | ASHR
deriving DecidableEq, Repr

/-- Variable-or-number third operand of `apply`. -/
inductive Operand where
  | var (x : Var)
  | num (k : Int)
deriving DecidableEq, Repr

/-- Evaluate an `apply` operand. -/
def Operand.eval (z : Operand) (ρ : Env) : Int :=
  match z with
  | .var x => ρ x
  | .num k => k

/-- Concrete meaning of the binary operators on unbounded integers (the
bitwise ones via the natural-number bit operations on absolute values for
non-negative inputs; only ADD and SUB are relied upon by any theorem). -/
def Binop.sem (op : Binop) (a b : Int) : Int :=
  match op with
  | .ADD => a + b
  | .SUB => a - b
  | .MUL => a * b
  | .SDIV => a / b
  | .UDIV => a / b
  | .SREM => a % b
  | .UREM => a % b
  | .AND => Int.ofNat (a.toNat &&& b.toNat)
  | .OR => Int.ofNat (a.toNat ||| b.toNat)
  | .XOR => Int.ofNat (a.toNat ^^^ b.toNat)
  | .SHL => a * (2 ^ b.toNat)
  | .LSHR => a / (2 ^ b.toNat)
  | .ASHR => a / (2 ^ b.toNat)

/-- Free term domain: a syntax tree recording exactly the abstract-domain
operations performed by the transformer.  `meet d c` is `d += c`,
`join` is `d |= d'`, `assign` is `d.assign(x, e)`, `havoc` is `d -= x`,
and `applyOp d op x y z fw` is `apply(d, op, x, y, z, fw)` (with `fw`
the `finite_width` flag that triggers the 64-bit overflow check). -/
inductive Dom where
  | top
  | meet (d : Dom) (c : Cst)
  | join (a b : Dom)
  | assign (d : Dom) (x : Var) (e : LinExp)
  | havoc (d : Dom) (x : Var)
  | applyOp (d : Dom) (op : Binop) (x y : Var) (z : Operand) (fw : Bool)
deriving DecidableEq, Repr

/-- Concretization of the free term domain into sets of environments.
`meet` is intersection with the constraint's solution set, `join` is
union, `assign` is the strongest-postcondition update, `havoc` forgets
the variable.  `applyOp` with the `finite_width` flag set may additionally
havoc the assigned variable (the source's `overflow` check havocs it when
its interval reaches half the 64-bit range), so it is concretized as a
havoc-style over-approximation of the update; with the flag clear it is
the exact update. -/
def gamma : Dom → Set Env
  | .top => Set.univ
  | .meet d c => {ρ | ρ ∈ gamma d ∧ c.holds ρ = true}
  | .join a b => gamma a ∪ gamma b
  | .assign d x e => {ρ | ∃ ρ₀, ρ₀ ∈ gamma d ∧ ρ = Function.update ρ₀ x (e.eval ρ₀)}
  | .havoc d x => {ρ | ∃ ρ₀, ρ₀ ∈ gamma d ∧ ∀ y, y ≠ x → ρ y = ρ₀ y}
  | .applyOp d op x y z fw =>
      if fw then
        {ρ | ∃ ρ₀, ρ₀ ∈ gamma d ∧ ∀ w, w ≠ x → ρ w = ρ₀ w}
      else
        {ρ | ∃ ρ₀, ρ₀ ∈ gamma d ∧ ρ = Function.update ρ₀ x (op.sem (ρ₀ y) (z.eval ρ₀))}

/-- Comparison operators of conditional jumps (`Condition::Op`). -/
inductive CondOp where
  | EQ | NE | SET | NSET | LT | LE | GT | GE | SLE | SLT | SGT | SGE
deriving DecidableEq, Repr

/-- A jump / assume condition (`Condition`). -/
structure Condition where
  op : CondOp
  left : Reg
  right : Value
deriving DecidableEq, Repr

/-- Pointer-comparison constraint `jmp_to_cst_offsets_reg`: the ordering
constraint applied to the two offset variables; all comparisons are
treated as unsigned because pointer offsets are compared directly
(the `SGE`/`SLE`/`SGT`/`SLT` cases coincide with the unsigned ones).  The
default case (`SET`/`NSET`) yields the tautology `0 = 0`. -/
def jmpToCstOffsetsReg (op : CondOp) (dstOffset srcOffset : Var) : Cst :=
  match op with
  | .EQ => .eqC (.v dstOffset) (.v srcOffset)
  | .NE => .neqC (.v dstOffset) (.v srcOffset)
  | .GE => Cst.ge (.v dstOffset) (.v srcOffset)
  | .SGE => Cst.ge (.v dstOffset) (.v srcOffset)
  | .LE => .le (.v dstOffset) (.v srcOffset)
  | .SLE => .le (.v dstOffset) (.v srcOffset)
  | .GT => Cst.ge (.v dstOffset) ((LinExp.v srcOffset).addK 1)
  | .SGT => Cst.ge (.v dstOffset) ((LinExp.v srcOffset).addK 1)
  | .SLT => Cst.ge (.v srcOffset) ((LinExp.v dstOffset).addK 1)
  | .LT => Cst.ge (.v srcOffset) ((LinExp.v dstOffset).addK 1)
  | _ => .eqC (.c 0) (.c 0)

/-- Numeric register-register comparison constraints `jmp_to_cst_reg`.
Returns `none` for `SET`, which the source rejects by throwing
`std::exception`. -/
def jmpToCstReg (op : CondOp) (dstValue srcValue : Var) : Option (List Cst) :=
  match op with
  | .EQ => some [.eqC (.v dstValue) (.v srcValue)]
  | .NE => some [.neqC (.v dstValue) (.v srcValue)]
  | .GE => some [Cst.ge (.v dstValue) (.v srcValue)]
  | .SGE => some [Cst.ge (.v dstValue) (.v srcValue)]
  | .LE => some [.le (.v dstValue) (.v srcValue), .le (.c 0) (.v dstValue)]
  | .SLE => some [.le (.v dstValue) (.v srcValue)]
  | .GT => some [Cst.ge (.v dstValue) ((LinExp.v srcValue).addK 1)]
  | .SGT => some [Cst.ge (.v dstValue) ((LinExp.v srcValue).addK 1)]
  | .LT => some [Cst.ge (.v srcValue) ((LinExp.v dstValue).addK 1)]
  | .SLT => some [Cst.ge (.v srcValue) ((LinExp.v dstValue).addK 1)]
  | .SET => none
  | .NSET => some []

/-- Unsigned-comparison test `is_unsigned_cmp`. -/
def isUnsignedCmp (op : CondOp) : Bool :=
  match op with
  | .GE | .LE | .GT | .LT => true
  | _ => false

/-- Pointer test `is_pointer(r)`: `reg_type(r) >= T_CTX`. -/
def isPointerCst (r : Reg) : Cst := Cst.ge (.v (Var.rtyp r.v)) (.c T_CTX)

/-- Transformer for `Assume` with a register right-hand side
(`intra_abs_transformer::operator()(Assume const&)`, register case).
Forks the state into the kinds-differ copies (`null_src`, `null_dst`,
each additionally assuming one side is a pointer), the both-numeric copy
(`numbers`, with the value constraints conjoined only for non-unsigned
operators), and the equal-kind pointer copy (offset constraint), then
joins them.  Returns `none` exactly when the source would throw (`SET`
with the numeric constraint list requested). -/
def assumeRegT (inv : Dom) (op : CondOp) (dst src : Reg) : Option Dom :=
  let dstValue := Var.rval dst.v
  let dstOffset := Var.roff dst.v
  let dstType := Var.rtyp dst.v
  let srcValue := Var.rval src.v
  let srcOffset := Var.roff src.v
  let srcType := Var.rtyp src.v
  let different := inv.meet (.neqC (.v dstType) (.v srcType))
  let nullSrc := different.meet (isPointerCst dst)
  let nullDst := different.meet (isPointerCst src)
  let m1 := inv.meet (.eqC (.v dstType) (.v srcType))
  let numbers0 := m1.meet (.eqC (.v dstType) (.c T_NUM))
  match (if isUnsignedCmp op then some [] else jmpToCstReg op dstValue srcValue) with
  | none => none
  | some csts =>
    let numbers := csts.foldl Dom.meet numbers0
    let m2 := (m1.meet (isPointerCst dst)).meet (jmpToCstOffsetsReg op dstOffset srcOffset)
    some (((m2.join numbers).join nullSrc).join nullDst)

/-- Type groups of `TypeConstraint` assertions (`TypeGroup`). -/
inductive TypeGroup where
  | num | map_fd | ctx | packet | stack | shared
  | non_map_fd | mem | mem_or_num | ptr | ptr_or_num | stack_or_packet
deriving DecidableEq, Repr

/-- A `ValidAccess` assertion: register, constant offset, width
(immediate or register), and the or-null flag.  The defaults reproduce
the aggregate initialization `ValidAccess{reg}` used for comparison
checks in `assertions.cpp`. -/
structure ValidAccess where
  reg : Reg
  offset : Int := 0
  width : Value := .imm 0
  or_null : Bool := false
deriving DecidableEq, Repr

/-- Assertion constraints (`AssertionConstraint` variants). -/
inductive AssertK where
  | typeConstraint (r : Reg) (g : TypeGroup)
  | validAccess (s : ValidAccess)
  | comparable (r1 r2 : Reg)
  | validSize (r : Reg) (can_be_zero : Bool)
  | validStore (mem val : Reg)
  | validMapKeyValue (access map_fd : Reg) (key : Bool)
  | addable (ptr num : Reg)
deriving DecidableEq, Repr

/-- Identification tags for the messages the transformer passes to
`require` (the source passes human-readable strings; only their identity
matters for the reports). -/
inductive Msg where
  | lowerPacket | upperPacket | upperPacketCmp
  | lowerStack | upperStack
  | lowerShared | upperShared
  | lowerCtx | upperCtx
  | onlyPtrDeref | ptrCompZero
  | typeCst | comparableCst | addableCst | validSizeCst | validStoreCst
  | stackOrPacketParam
deriving DecidableEq, Repr

/-- Diagnostics the property checker can emit for one statement: a plain
warning, a contradiction warning (message prefixed with `Contradition:`
in the source), or an unreachable event. -/
inductive Diag where
  | warn (m : Msg)
  | contra (m : Msg)
  | unreach
deriving DecidableEq, Repr

/-- Domain operations the assertion transformers use, mirroring the
`AbsDomain` template parameter of `intra_abs_transformer` together with
its virtual `require` hook: `meet` is `inv += cst`, `join` is `|`,
`applyB` is `apply(op, x, y, z)`, and `req` is the overridable
`require(inv, cst, msg)` returning the updated state plus any emitted
diagnostics. -/
structure TOps (St : Type) (Δ : Type) where
  meet : St → Cst → St
  join : St → St → St
  applyB : St → Binop → Var → Var → Operand → St
  req : St → Cst → Msg → St × List Δ

/-- Packet bounds check `check_access_packet`: lower bound against
`meta_offset`; upper bound against `MAX_PACKET_OFF` for comparison
checks, against `packet_size` otherwise. -/
def checkAccessPacket {St Δ : Type} (O : TOps St Δ) (inv : St) (lb ub : LinExp)
    (isCmp : Bool) : St × List Δ :=
  let r1 := O.req inv (Cst.ge lb (.v Var.metaOffset)) .lowerPacket
  if isCmp then
    let r2 := O.req r1.1 (.le ub (.c MAX_PACKET_OFF)) .upperPacketCmp
    (r2.1, r1.2 ++ r2.2)
  else
    let r2 := O.req r1.1 (.le ub (.v Var.packetSize)) .upperPacket
    (r2.1, r1.2 ++ r2.2)

/-- Stack bounds check `check_access_stack`: `[0, STACK_SIZE]`. -/
def checkAccessStack {St Δ : Type} (O : TOps St Δ) (inv : St) (lb ub : LinExp) :
    St × List Δ :=
  let r1 := O.req inv (Cst.ge lb (.c 0)) .lowerStack
  let r2 := O.req r1.1 (.le ub (.c STACK_SIZE)) .upperStack
  (r2.1, r1.2 ++ r2.2)

/-- Shared bounds check `check_access_shared`: `[0, reg_type]`, the kind
value of a shared region encoding its size. -/
def checkAccessShared {St Δ : Type} (O : TOps St Δ) (inv : St) (lb ub : LinExp)
    (regType : Var) : St × List Δ :=
  let r1 := O.req inv (Cst.ge lb (.c 0)) .lowerShared
  let r2 := O.req r1.1 (.le ub (.v regType)) .upperShared
  (r2.1, r1.2 ++ r2.2)

/-- Context bounds check `check_access_context`:
`[0, global_program_info.descriptor.size]`; the context size is passed
explicitly here instead of through the process-wide global. -/
def checkAccessContext {St Δ : Type} (O : TOps St Δ) (inv : St) (lb ub : LinExp)
    (ctxSize : Int) : St × List Δ :=
  let r1 := O.req inv (Cst.ge lb (.c 0)) .lowerCtx
  let r2 := O.req r1.1 (.le ub (.c ctxSize)) .upperCtx
  (r2.1, r1.2 ++ r2.2)

/-- Transformer for `ValidAccess`
(`intra_abs_transformer::operator()(const ValidAccess&)`): bounds checks
split by region kind in four conditioned copies that are joined into
`assume_ptr`; a width of immediate `0` marks a comparison check which is
rejoined with the incoming state; otherwise `or_null` admits the
numeric-zero case and the plain case requires a pointer. -/
def tValidAccess {St Δ : Type} (O : TOps St Δ) (ctxSize : Int) (inv : St)
    (s : ValidAccess) : St × List Δ :=
  let isCmp : Bool := s.width == Value.imm 0
  let t := Var.rtyp s.reg.v
  let lb : LinExp := ⟨[Var.roff s.reg.v], s.offset⟩
  let ub : LinExp :=
    match s.width with
    | .imm w => ⟨[Var.roff s.reg.v], s.offset + w⟩
    | .reg wr => ⟨[Var.roff s.reg.v, Var.rval wr.v], s.offset⟩
  let rp := checkAccessPacket O (O.meet inv (.eqC (.v t) (.c T_PACKET))) lb ub isCmp
  let rs := checkAccessStack O (O.meet inv (.eqC (.v t) (.c T_STACK))) lb ub
  let rsh := checkAccessShared O (O.meet inv (Cst.gt (.v t) (.c T_SHARED))) lb ub t
  let rc := checkAccessContext O (O.meet inv (.eqC (.v t) (.c T_CTX))) lb ub ctxSize
  let assumePtr := O.join (O.join (O.join rp.1 rs.1) rsh.1) rc.1
  let δ := rp.2 ++ rs.2 ++ rsh.2 ++ rc.2
  if isCmp then
    (O.join inv assumePtr, δ)
  else if s.or_null then
    let inv1 := O.meet inv (.eqC (.v t) (.c T_NUM))
    let r5 := O.req inv1 (.eqC (.v (Var.rval s.reg.v)) (.c 0)) .ptrCompZero
    (O.join r5.1 assumePtr, δ ++ r5.2)
  else
    let r5 := O.req inv (Cst.gt (.v t) (.c T_NUM)) .onlyPtrDeref
    (assumePtr, δ ++ r5.2)

/-- Transformer for `TypeConstraint`
(`intra_abs_transformer::operator()(const TypeConstraint&)`): one or two
`require` calls constraining the kind variable to the group's interval. -/
def tTypeConstraint {St Δ : Type} (O : TOps St Δ) (inv : St) (r : Reg)
    (g : TypeGroup) : St × List Δ :=
  let t : LinExp := .v (Var.rtyp r.v)
  match g with
  | .num => O.req inv (.eqC t (.c T_NUM)) .typeCst
  | .map_fd => O.req inv (.eqC t (.c T_MAP)) .typeCst
  | .ctx => O.req inv (.eqC t (.c T_CTX)) .typeCst
  | .packet => O.req inv (.eqC t (.c T_PACKET)) .typeCst
  | .stack => O.req inv (.eqC t (.c T_STACK)) .typeCst
  | .shared => O.req inv (Cst.gt t (.c T_SHARED)) .typeCst
  | .non_map_fd => O.req inv (Cst.ge t (.c T_NUM)) .typeCst
  | .mem => O.req inv (Cst.ge t (.c T_STACK)) .typeCst
  | .mem_or_num =>
    let r1 := O.req inv (Cst.ge t (.c T_NUM)) .typeCst
    let r2 := O.req r1.1 (.neqC t (.c T_CTX)) .typeCst
    (r2.1, r1.2 ++ r2.2)
  | .ptr => O.req inv (Cst.ge t (.c T_CTX)) .typeCst
  | .ptr_or_num => O.req inv (Cst.ge t (.c T_NUM)) .typeCst
  | .stack_or_packet =>
    let r1 := O.req inv (Cst.ge t (.c T_STACK)) .typeCst
    let r2 := O.req r1.1 (.le t (.c T_PACKET)) .typeCst
    (r2.1, r1.2 ++ r2.2)

/-- Transformer for `Comparable`: require equal kind variables. -/
def tComparable {St Δ : Type} (O : TOps St Δ) (inv : St) (r1 r2 : Reg) :
    St × List Δ :=
  O.req inv (.eqC (.v (Var.rtyp r1.v)) (.v (Var.rtyp r2.v))) .comparableCst

/-- Transformer for `Addable`: in the copy where the pointer operand's
kind is above `T_NUM`, require the other operand numeric; rejoin with
the copy satisfying the negated condition. -/
def tAddable {St Δ : Type} (O : TOps St Δ) (inv : St) (ptr num : Reg) :
    St × List Δ :=
  let cond := Cst.gt (.v (Var.rtyp ptr.v)) (.c T_NUM)
  let isPtr := O.meet inv cond
  let r := O.req isPtr (.eqC (.v (Var.rtyp num.v)) (.c T_NUM)) .addableCst
  (O.join (O.meet inv (.le (.v (Var.rtyp ptr.v)) (.c T_NUM))) r.1, r.2)

/-- Transformer for `ValidSize`: require the size value `> 0`, or `>= 0`
when zero is allowed. -/
def tValidSize {St Δ : Type} (O : TOps St Δ) (inv : St) (r : Reg)
    (can_be_zero : Bool) : St × List Δ :=
  let rv : LinExp := .v (Var.rval r.v)
  O.req inv (if can_be_zero then Cst.ge rv (.c 0) else Cst.gt rv (.c 0)) .validSizeCst

/-- Transformer for `ValidStore`: in the copy where the memory operand is
not the stack, require the stored value numeric; rejoin with the stack
copy (the negated disequation). -/
def tValidStore {St Δ : Type} (O : TOps St Δ) (inv : St) (mem val : Reg) :
    St × List Δ :=
  let cond := Cst.neqC (.v (Var.rtyp mem.v)) (.c T_STACK)
  let nonStack := O.meet inv cond
  let r := O.req nonStack (.eqC (.v (Var.rtyp val.v)) (.c T_NUM)) .validStoreCst
  (O.join (O.meet inv (.eqC (.v (Var.rtyp mem.v)) (.c T_STACK))) r.1, r.2)

/-- Transformer for `ValidMapKeyValue`: decode the key/value sizes from
the map-fd register's value, require a stack-or-packet access register,
and run the packet/stack bounds checks on the joined copies. -/
def tValidMapKeyValue {St Δ : Type} (O : TOps St Δ) (inv : St)
    (access map_fd : Reg) (key : Bool) : St × List Δ :=
  let v := Var.rval map_fd.v
  let i1 := O.applyB inv .LSHR Var.mapValueSize v (.num 14)
  let i2 := O.applyB i1 .UREM Var.mapKeySize v (.num 16384)
  let i3 := O.applyB i2 .LSHR Var.mapKeySize Var.mapKeySize (.num 6)
  let t := Var.rtyp access.v
  let lb : LinExp := .v (Var.roff access.v)
  let ub : LinExp := lb.addV (if key then Var.mapKeySize else Var.mapValueSize)
  let r1 := O.req i3 (Cst.ge (.v t) (.c T_STACK)) .stackOrPacketParam
  let r2 := O.req r1.1 (.le (.v t) (.c T_PACKET)) .stackOrPacketParam
  let rp := checkAccessPacket O (O.meet r2.1 (.eqC (.v t) (.c T_PACKET))) lb ub false
  let rs := checkAccessStack O (O.meet r2.1 (.eqC (.v t) (.c T_STACK))) lb ub
  (O.join rp.1 rs.1, r1.2 ++ r2.2 ++ rp.2 ++ rs.2)

/-- Dispatch of `operator()(Assert const&)` over the assertion variants. -/
def tAssert {St Δ : Type} (O : TOps St Δ) (ctxSize : Int) (inv : St)
    (a : AssertK) : St × List Δ :=
  match a with
  | .typeConstraint r g => tTypeConstraint O inv r g
  | .validAccess s => tValidAccess O ctxSize inv s
  | .comparable r1 r2 => tComparable O inv r1 r2
  | .validSize r z => tValidSize O inv r z
  | .validStore mem val => tValidStore O inv mem val
  | .validMapKeyValue access map_fd key => tValidMapKeyValue O inv access map_fd key
  | .addable ptr num => tAddable O inv ptr num

/-- Property-checker override of `require`
(`assert_property_checker::require`): nothing is emitted on a bottom
state; a contradiction warning is emitted for a syntactically
contradictory constraint; otherwise nothing on entailment, and a warning
both when the constraint intersects the state and when it does not (the
source's two final branches both call `add_warning`).  In every case the
constraint is then assumed into the state (the `out:` label).  The
domain-trait operations `is_bottom`, `entail`, `intersect` and the
assumption are passed as parameters, mirroring
`checker_domain_traits<AbsDomain>`. -/
def checkerRequire {St : Type} (isBot : St → Bool) (isContra : Cst → Bool)
    (entail intersect : St → Cst → Bool) (assumeCst : St → Cst → St)
    (inv : St) (cst : Cst) (m : Msg) : St × List Diag :=
  if isBot inv then (assumeCst inv cst, [])
  else if isContra cst then (assumeCst inv cst, [.contra m])
  else if entail inv cst then (assumeCst inv cst, [])
  else if intersect inv cst then (assumeCst inv cst, [.warn m])
  else (assumeCst inv cst, [.warn m])

/-- Per-statement wrapper of the checker
(`assert_property_checker::operator()`): run the parent transformer
(passed as `f`, returning the post state and the diagnostics its
`require` calls emitted), and append an unreachable event when the state
was not bottom before the statement and is bottom after it. -/
def checkerStep {St : Type} (isBot : St → Bool) (f : St → St × List Diag)
    (inv : St) : St × List Diag :=
  let preBot := isBot inv
  let r := f inv
  (r.1, r.2 ++ (if preBot = false ∧ isBot r.1 = true then [.unreach] else []))

/-- Recording instance of the transformer operations over the free term
domain: `require` behaves as in the base transformer (it assumes the
constraint) and additionally records the triple (state it was called on,
message, constraint), which is exactly the instrumentation the checker
subclass layers over the base transformer. -/
def domOpsRec : TOps Dom (Dom × Msg × Cst) where
  meet := Dom.meet
  join := Dom.join
  applyB := fun d op x y z => Dom.applyOp d op x y z false
  req := fun d c m => (Dom.meet d c, [(d, m, c)])

/-- Bottom test of the finite collecting domain: no environment left. -/
def envIsBot (S : List Env) : Bool := S.isEmpty

/-- Meet of the finite collecting domain: keep the satisfying environments. -/
def envMeet (S : List Env) (c : Cst) : List Env := S.filter fun ρ => c.holds ρ

/-- Entailment in the finite collecting domain (the
`checker_domain_traits<AbsDomain>::entail` hook; the spec defines it as
`¬c ∩ self` being bottom, which over a finite set of environments is:
every environment satisfies `c`). -/
def envEntail (S : List Env) (c : Cst) : Bool := S.all fun ρ => c.holds ρ

/-- Intersection test in the finite collecting domain (the spec's
`c ∩ self` non-bottom: some environment satisfies `c`). -/
def envIntersect (S : List Env) (c : Cst) : Bool := S.any fun ρ => c.holds ρ

/-- Checker instance of the transformer operations over the finite
collecting domain, with `require` as overridden by
`assert_property_checker`. -/
def envOpsCheck : TOps (List Env) Diag where
  meet := envMeet
  join := fun a b => a ++ b
  applyB := fun S op x y z =>
    S.map fun ρ => Function.update ρ x (op.sem (ρ y) (z.eval ρ))
  req := checkerRequire envIsBot Cst.isContra envEntail envIntersect envMeet

/-- Checker run over a list of assertions: fold each assertion's
transformer (with the checker `require`), accumulating diagnostics. -/
def checkAsserts (ctxSize : Int) (S : List Env) (asserts : List AssertK) :
    List Env × List Diag :=
  asserts.foldl
    (fun acc a =>
      let r := tAssert envOpsCheck ctxSize acc.1 a
      (r.1, acc.2 ++ r.2))
    (S, [])

/-- Opcodes of `Bin` instructions (`Bin::Op`). -/
inductive BinOp where
  | MOV | ADD | SUB | MUL | DIV | MOD | OR | AND | LSH | RSH | ARSH | XOR
deriving DecidableEq, Repr

/-- A `Bin` instruction: `dst op= v`, with `is64` clear for the 32-bit
form. -/
structure BinStmt where
  op : BinOp
  dst : Reg
  v : Value
  is64 : Bool
deriving DecidableEq, Repr

/-- Helper `no_pointer(r)`: kind becomes numeric, offset is havoced. -/
def noPointer (d : Dom) (r : Reg) : Dom :=
  (d.assign (Var.rtyp r.v) (.c T_NUM)).havoc (Var.roff r.v)

/-- Core of `intra_abs_transformer::operator()(Bin const&)`: the opcode
switch for both immediate and register operands, before the final 32-bit
masking.  Returns `none` for the source's early `return` on `ADD`/`SUB`
of immediate `0`, which leaves the incoming state untouched (and skips
the masking). -/
def binTCore (inv : Dom) (op : BinOp) (dst : Reg) (v : Value) : Option Dom :=
  let dstValue := Var.rval dst.v
  let dstOffset := Var.roff dst.v
  let dstType := Var.rtyp dst.v
  match v with
  | .imm imm =>
    match op with
    | .MOV => some (noPointer (inv.assign dstValue (.c imm)) dst)
    | .ADD =>
      if imm = 0 then none
      else some ((inv.applyOp .ADD dstValue dstValue (.num imm) true).applyOp
        .ADD dstOffset dstOffset (.num imm) false)
    | .SUB =>
      if imm = 0 then none
      else some ((inv.applyOp .SUB dstValue dstValue (.num imm) true).applyOp
        .SUB dstOffset dstOffset (.num imm) false)
    | .MUL => some (noPointer (inv.applyOp .MUL dstValue dstValue (.num imm) true) dst)
    | .DIV => some (noPointer (inv.applyOp .SDIV dstValue dstValue (.num imm) true) dst)
    | .MOD => some (noPointer (inv.applyOp .SREM dstValue dstValue (.num imm) true) dst)
    | .OR => some (noPointer (inv.applyOp .OR dstValue dstValue (.num imm) false) dst)
    | .AND =>
      let d := inv.applyOp .AND dstValue dstValue (.num imm) false
      let d :=
        if 0 < imm then
          (d.meet (.le (.v dstValue) (.c imm))).meet (.le (.c 0) (.v dstValue))
        else d
      some (noPointer d dst)
    | .LSH => some (noPointer (inv.applyOp .SHL dstValue dstValue (.num imm) true) dst)
    | .RSH => some (noPointer (inv.havoc dstValue) dst)
    | .ARSH => some (noPointer (inv.havoc dstValue) dst)
    | .XOR => some (noPointer (inv.applyOp .XOR dstValue dstValue (.num imm) false) dst)
  | .reg src =>
    let srcValue := Var.rval src.v
    let srcOffset := Var.roff src.v
    let srcType := Var.rtyp src.v
    match op with
    | .ADD =>
      let ptrDst := ((inv.meet (isPointerCst dst)).applyOp
          .ADD dstValue dstValue (.var srcValue) true).applyOp
        .ADD dstOffset dstOffset (.var srcValue) false
      let ptrSrc := ((((inv.meet (isPointerCst src)).applyOp
          .ADD dstValue srcValue (.var dstValue) true).applyOp
        .ADD dstOffset srcOffset (.var dstValue) false).assign dstType (.v srcType))
      let m := (((inv.meet (.eqC (.v dstType) (.c T_NUM))).meet
          (.eqC (.v srcType) (.c T_NUM))).applyOp
        .ADD dstValue dstValue (.var srcValue) true)
      some ((m.join ptrDst).join ptrSrc)
    | .SUB =>
      let ptrDst := (((inv.meet (.eqC (.v srcType) (.c T_NUM))).meet
          (isPointerCst dst)).applyOp
          .SUB dstValue dstValue (.var srcValue) true).applyOp
        .SUB dstOffset dstOffset (.var srcValue) false
      let bothNum := ((inv.meet (.eqC (.v srcType) (.c T_NUM))).meet
          (.eqC (.v dstType) (.c T_NUM))).applyOp
        .SUB dstValue dstValue (.var srcValue) true
      let m := (((((inv.meet (isPointerCst src)).meet
          (Cst.lt (.v srcType) (.c T_SHARED))).meet
          (.eqC (.v srcType) (.v dstType))).applyOp
          .SUB dstValue dstOffset (.var srcOffset) false).assign
          dstType (.c T_NUM)).havoc dstOffset
      some ((m.join bothNum).join ptrDst)
    | .MUL => some (noPointer (inv.applyOp .MUL dstValue dstValue (.var srcValue) true) dst)
    | .DIV => some (noPointer (inv.applyOp .SDIV dstValue dstValue (.var srcValue) true) dst)
    | .MOD => some (noPointer (inv.applyOp .SREM dstValue dstValue (.var srcValue) true) dst)
    | .OR => some (noPointer (inv.applyOp .OR dstValue dstValue (.var srcValue) false) dst)
    | .AND => some (noPointer (inv.applyOp .AND dstValue dstValue (.var srcValue) false) dst)
    | .LSH => some (noPointer (inv.applyOp .SHL dstValue dstValue (.var srcValue) true) dst)
    | .RSH => some (noPointer (inv.havoc dstValue) dst)
    | .ARSH => some (noPointer (inv.havoc dstValue) dst)
    | .XOR => some (noPointer (inv.applyOp .XOR dstValue dstValue (.var srcValue) false) dst)
    | .MOV =>
      some (((inv.assign dstValue (.v srcValue)).assign dstOffset
        (.v srcOffset)).assign dstType (.v srcType))

/-- Transformer for `Bin` instructions: the opcode switch (`binTCore`)
followed, when `is64` is clear and the early return was not taken, by the
32-bit masking `bitwise_and(dst.value, UINT32_MAX)`. -/
def binT (inv : Dom) (b : BinStmt) : Dom :=
  match binTCore inv b.op b.dst b.v with
  | none => inv
  | some d =>
    if b.is64 then d
    else d.applyOp .AND (Var.rval b.dst.v) (Var.rval b.dst.v) (.num 4294967295) false

/-- Context descriptor of a program type
(`ptype_descr` / `EbpfContextDescriptor`): region size and the offsets
of the `data`, `data_end` and `meta` fields, `-1` when absent. -/
structure CtxDescr where
  size : Int
  data : Int := -1
  dataEnd : Int := -1
  meta : Int := -1
deriving DecidableEq, Repr

/-- Initial abstract state `setup_entry` (`abs_transformer.hpp`):
constraints on r10, r1, the packet-size variable, and the meta-offset
variable, as the recorded operation tree. -/
def setupEntry (desc : CtxDescr) : Dom :=
  let i1 := Dom.meet .top (.le (.c STACK_SIZE) (.v (Var.rval 10)))
  let i2 := (i1.assign (Var.roff 10) (.c STACK_SIZE)).assign (Var.rtyp 10) (.c T_STACK)
  let i3 := ((((i2.meet (.le (.c 1) (.v (Var.rval 1)))).meet
    (.le (.v (Var.rval 1)) (.c PTR_MAX))).assign (Var.roff 1) (.c 0)).assign
    (Var.rtyp 1) (.c T_CTX))
  let i4 := (i3.meet (.le (.c 0) (.v Var.packetSize))).meet
    (Cst.lt (.v Var.packetSize) (.c MAX_PACKET_OFF))
  if 0 ≤ desc.meta then
    (i4.meet (.le (.v Var.metaOffset) (.c 0))).meet
      (Cst.ge (.v Var.metaOffset) (.c (-4098)))
  else
    i4.assign Var.metaOffset (.c 0)

/-- Program types (`BpfProgType` in `gpl/spec_type_descriptors.hpp`). -/
inductive BpfProgType where
  | UNSPEC | SOCKET_FILTER | KPROBE | SCHED_CLS | SCHED_ACT | TRACEPOINT
  | XDP | PERF_EVENT | CGROUP_SKB | CGROUP_SOCK | LWT_IN | LWT_OUT | LWT_XMIT
  | SOCK_OPS | SK_SKB | CGROUP_DEVICE | SK_MSG | RAW_TRACEPOINT
  | CGROUP_SOCK_ADDR | LWT_SEG6LOCAL | LIRC_MODE2
deriving DecidableEq, Repr

/-- Privilege test of the assertion extractor
(`is_privileged = info.program_type == BpfProgType::KPROBE`). -/
def isPrivileged (t : BpfProgType) : Bool := t == BpfProgType.KPROBE

/-- Assertion injection for a jump / assume condition
(`AssertExtractor::explicate`): nothing for privileged programs;
otherwise a width-zero `ValidAccess` on the left register, then for an
immediate right-hand side a numeric `TypeConstraint` exactly when the
literal is nonzero, and for a register right-hand side a width-zero
`ValidAccess`, a `non_map_fd` `TypeConstraint` for non-equality
operators, and a `Comparable`. -/
def explicate (t : BpfProgType) (cond : Condition) : List AssertK :=
  if isPrivileged t then []
  else
    [.validAccess {reg := cond.left}] ++
      (match cond.right with
       | .imm v =>
         if v ≠ 0 then [.typeConstraint cond.left .num] else []
       | .reg r =>
         [.validAccess {reg := r}] ++
           (if cond.op ≠ .EQ ∧ cond.op ≠ .NE then
             [.typeConstraint cond.left .non_map_fd]
           else []) ++
           [.comparable cond.left r])

/-- Assertion injection for a `Jmp` (`AssertExtractor::operator()(Jmp)`):
nothing for an unconditional jump, `explicate` otherwise. -/
def jmpAsserts (t : BpfProgType) (cond : Option Condition) : List AssertK :=
  match cond with
  | none => []
  | some c => explicate t c

/-- Assertion injection for a `Mem` instruction
(`AssertExtractor::operator()(Mem)`): a stack access through r10 gets
only the bounds assertion; any other base register gets a pointer
`TypeConstraint` plus the bounds assertion, and a non-privileged store
of a register value additionally gets a numeric `TypeConstraint` on the
stored value (width other than 8) or a `ValidStore` (width 8). -/
def memAsserts (t : BpfProgType) (is_load : Bool) (basereg : Reg)
    (offset width : Int) (value : Value) : List AssertK :=
  if basereg.v = 10 then
    [.validAccess {reg := basereg, offset := offset, width := .imm width}]
  else
    [.typeConstraint basereg .ptr,
     .validAccess {reg := basereg, offset := offset, width := .imm width}] ++
      (match value with
       | .reg valreg =>
         if ¬isPrivileged t ∧ is_load = false then
           if width ≠ 8 then [.typeConstraint valreg .num]
           else [.validStore basereg valreg]
         else []
       | .imm _ => [])

/-- Kinds of single-register helper arguments (`ArgSingle::Kind`). -/
inductive ArgSingleKind where
  | ANYTHING | MAP_FD | PTR_TO_MAP_KEY | PTR_TO_MAP_VALUE | PTR_TO_CTX
deriving DecidableEq, Repr

/-- A single-register helper argument. -/
structure ArgSingle where
  kind : ArgSingleKind
  reg : Reg
deriving DecidableEq, Repr

/-- Kinds of pointer+size helper argument pairs (`ArgPair::Kind`). -/
inductive ArgPairKind where
  | PTR_TO_MEM_OR_NULL | PTR_TO_MEM | PTR_TO_UNINIT_MEM
deriving DecidableEq, Repr

/-- A pointer+size helper argument pair. -/
structure ArgPair where
  kind : ArgPairKind
  mem : Reg
  size : Reg
  can_be_zero : Bool
deriving DecidableEq, Repr

/-- One step of the singles loop in `AssertExtractor::operator()(Call)`:
appends the assertions for one argument and tracks the last `MAP_FD`
register (used by the map key/value assertions; the source dereferences
it unconditionally, so a default register stands in when none was seen). -/
def callSingleStep (t : BpfProgType) (acc : List AssertK × Option Reg)
    (arg : ArgSingle) : List AssertK × Option Reg :=
  match arg.kind with
  | .ANYTHING =>
    (acc.1 ++ (if ¬isPrivileged t then [.typeConstraint arg.reg .num] else []), acc.2)
  | .MAP_FD => (acc.1 ++ [.typeConstraint arg.reg .map_fd], some arg.reg)
  | .PTR_TO_MAP_KEY =>
    (acc.1 ++ [.typeConstraint arg.reg .stack_or_packet,
      .validMapKeyValue arg.reg (acc.2.getD ⟨0⟩) true], acc.2)
  | .PTR_TO_MAP_VALUE =>
    (acc.1 ++ [.typeConstraint arg.reg .stack_or_packet,
      .validMapKeyValue arg.reg (acc.2.getD ⟨0⟩) false], acc.2)
  | .PTR_TO_CTX => (acc.1 ++ [.typeConstraint arg.reg .ctx], acc.2)

/-- One step of the pairs loop in `AssertExtractor::operator()(Call)`. -/
def callPairStep (acc : List AssertK) (arg : ArgPair) : List AssertK :=
  acc ++
    (match arg.kind with
     | .PTR_TO_MEM_OR_NULL => [.typeConstraint arg.mem .mem_or_num]
     | .PTR_TO_MEM => [.typeConstraint arg.mem .mem]
     | .PTR_TO_UNINIT_MEM => [.typeConstraint arg.mem .mem]) ++
    [.typeConstraint arg.size .num,
     .validSize arg.size arg.can_be_zero,
     .validAccess {reg := arg.mem, offset := 0, width := .reg arg.size,
                   or_null := arg.kind == .PTR_TO_MEM_OR_NULL}]

/-- Assertion injection for a `Call`
(`AssertExtractor::operator()(Call)`). -/
def callAsserts (t : BpfProgType) (singles : List ArgSingle)
    (pairs : List ArgPair) : List AssertK :=
  pairs.foldl callPairStep (singles.foldl (callSingleStep t) ([], none)).1

/-- Diagnostic kinds of the toy checks database
(`check_kind_t` in `abs_transformer.hpp`). -/
inductive CheckKind where
  | error | warning | redundant | unreachable
deriving DecidableEq, Repr

/-- Toy checks database of `abs_transformer.hpp` (`class checks_db`):
the per-label diagnostics plus the per-kind totals map, which `add`
keeps in sync. -/
structure ChecksDb where
  db : List (Nat × CheckKind)
  total : CheckKind → Nat

/-- Empty database; the totals map is initialized with all four kinds at
zero. -/
def ChecksDb.empty : ChecksDb := ⟨[], fun _ => 0⟩

/-- Database insertion `checks_db::add(label, status, msg)`. -/
def ChecksDb.add (d : ChecksDb) (label : Nat) (status : CheckKind) : ChecksDb :=
  ⟨d.db ++ [(label, status)],
   fun k => if k = status then d.total k + 1 else d.total k⟩

/-- Reported total `checks_db::total_error()`. -/
def ChecksDb.totalError (d : ChecksDb) : Nat := d.total .error

/-- Reported total `checks_db::total_warning()`. -/
def ChecksDb.totalWarning (d : ChecksDb) : Nat := d.total .warning

/-- Reported total `checks_db::total_redundant()` — which the source
reads from the `Unreachable` entry of the totals map. -/
def ChecksDb.totalRedundant (d : ChecksDb) : Nat := d.total .unreachable

/-- Reported total `checks_db::total_unreachable()`. -/
def ChecksDb.totalUnreachable (d : ChecksDb) : Nat := d.total .unreachable

/-- Build a database from a sequence of `add` calls on the empty one. -/
def ChecksDb.ofAdds (adds : List (Nat × CheckKind)) : ChecksDb :=
  adds.foldl (fun d p => d.add p.1 p.2) ChecksDb.empty

/-- Number of adds of a given kind in a sequence. -/
def countKind (adds : List (Nat × CheckKind)) (k : CheckKind) : Nat :=
  (adds.filter fun p => p.2 = k).length

/-- Report-building operations of the verifier driver's checks database
(`struct checks_db` in `crab_verifier.cpp`): warnings, unreachable
events, and possible-nontermination entries. -/
inductive DbOp where
  | warn (label : Nat)
  | unreach (label : Nat)
  | nonterm (label : Nat)
deriving DecidableEq, Repr

/-- Verifier driver's checks database (`crab_verifier.cpp`): per-label
message count, the two totals, and the possible-nontermination set. -/
structure VChecksDb where
  db : List Nat
  totalWarnings : Nat
  totalUnreachable : Nat
  nonterm : List Nat
deriving DecidableEq, Repr

/-- Empty driver database. -/
def VChecksDb.empty : VChecksDb := ⟨[], 0, 0, []⟩

/-- Apply one report operation (`add_warning`, `add_unreachable`,
`add_nontermination`): warnings and unreachable events both append to
the per-label message store but bump different totals; nontermination
entries go to the nontermination set and bump the warning total. -/
def VChecksDb.apply (d : VChecksDb) : DbOp → VChecksDb
  | .warn l => ⟨d.db ++ [l], d.totalWarnings + 1, d.totalUnreachable, d.nonterm⟩
  | .unreach l => ⟨d.db ++ [l], d.totalWarnings, d.totalUnreachable + 1, d.nonterm⟩
  | .nonterm l => ⟨d.db, d.totalWarnings + 1, d.totalUnreachable, d.nonterm ++ [l]⟩

/-- Database produced by a report-generation run issuing the given
operations (the body of `generate_report` abstracted over which
diagnostics fire). -/
def VChecksDb.ofOps (ops : List DbOp) : VChecksDb :=
  ops.foldl VChecksDb.apply VChecksDb.empty

/-- Verification outcome of `run_ebpf_analysis`: the program passes
exactly when `report.total_warnings == 0`. -/
def runEbpfAnalysisResult (ops : List DbOp) : Bool :=
  (VChecksDb.ofOps ops).totalWarnings == 0

/-- Syntactic test used by the C4 counterexample: whether the outermost
operation of the recorded tree is the 32-bit mask of the given
register's value variable. -/
def isMask32 (d : Dom) (r : Reg) : Bool :=
  match d with
  | .applyOp _ .AND x y (.num 4294967295) false =>
    x == Var.rval r.v && y == Var.rval r.v
  | _ => false

/-- Pointer-difference branch of the register `SUB` case: both operands
pointers of equal kind, source kind strictly below the shared threshold;
the destination value becomes the offset difference, its kind numeric,
its offset havoced. -/
def subPtrDiffBranch (inv : Dom) (dst src : Reg) : Dom :=
  (((((inv.meet (isPointerCst src)).meet
      (Cst.lt (.v (Var.rtyp src.v)) (.c T_SHARED))).meet
      (.eqC (.v (Var.rtyp src.v)) (.v (Var.rtyp dst.v)))).applyOp
      .SUB (Var.rval dst.v) (Var.roff dst.v) (.var (Var.roff src.v)) false).assign
      (Var.rtyp dst.v) (.c T_NUM)).havoc (Var.roff dst.v)

/-- Report operations that bump the driver's warning total: warnings and
possible-nontermination entries. -/
def DbOp.isWarnLike : DbOp → Bool
  | .warn _ => true
  | .nonterm _ => true
  | .unreach _ => false

/-- Report operations recording an unreachable block. -/
def DbOp.isUnreachable : DbOp → Bool
  | .unreach _ => true
  | _ => false

/-- Concrete one-environment invariant for the C6 counterexample:
every variable is `0`. -/
def c6inv : List Env := [fun _ => 0]

/-- Concrete assertion for the C6 counterexample: `r0.value >= 1`,
which the invariant `r0.value = 0` contradicts. -/
def c6cst : Cst := Cst.ge (.v (Var.rval 0)) (.c 1)

/-- Test for a `TypeConstraint` assertion. -/
def isTypeConstraintA : AssertK → Bool
  | .typeConstraint _ _ => true
  | _ => false

/-- Concrete environment for the C2 counterexample: satisfies all
`setup_entry` constraints while r0's kind variable is `77`, far from
`T_UNINIT`. -/
def c2env : Env := fun v =>
  match v with
  | .rval 10 => 512
  | .roff 10 => 512
  | .rtyp 10 => T_STACK
  | .rval 1 => 1
  | .rtyp 1 => T_CTX
  | .rtyp 0 => 77
  | _ => 0

/-- Concrete environment for the C3 counterexample: both registers
numeric with `r1.value = 0 < 5 = r2.value`, violating the `GE`
ordering constraint the claim says is conjoined. -/
def c3env : Env := fun v =>
  match v with
  | .rtyp 1 => T_NUM
  | .rtyp 2 => T_NUM
  | .rval 2 => 5
  | _ => 0

/-- Resulting state of the `Assume` transformer at `r1 == r2` on top,
used by the C3 witness. -/
def c3eqTree : Dom := (assumeRegT Dom.top .EQ ⟨1⟩ ⟨2⟩).getD Dom.top

/-- Concrete environment for the C7 witness: r1's kind is `T_CTX`
(the register may be a pointer). -/
def c7env : Env := fun x =>
  match x with
  | .rtyp 1 => T_CTX
  | _ => 0

/-!
### Theorems settling the claims
-/

/-- Claim C4 (amended): for every `Bin` instruction with `is64` clear,
the result is the 64-bit transformer's result masked to 32 bits by
`bitwise_and` with `0xFFFFFFFF` — except for `ADD` and `SUB` of
immediate `0`, where the source returns early and the state (and in
particular the unmasked destination value) is left untouched. -/
theorem c4_bin32_mask (inv : Dom) (op : BinOp) (dst : Reg) (v : Value) :
    binT inv ⟨op, dst, v, false⟩ =
      if (op = .ADD ∨ op = .SUB) ∧ v = .imm 0 then inv
      else Dom.applyOp (binT inv ⟨op, dst, v, true⟩) .AND (Var.rval dst.v)
        (Var.rval dst.v) (.num 4294967295) false := by
  rcases v with w | src
  · rcases op <;> simp [binT, binTCore] <;> by_cases hw : w = 0 <;> simp [hw]
  · rcases op <;> simp [binT, binTCore]

/-- Claim C4 counterexample: a 32-bit `ADD` of immediate `0` leaves the
state untouched — no `bitwise_and(dst.value, 0xFFFFFFFF)` is applied,
contradicting the claim's "for every opcode ... including ADD and SUB of
immediate 0" (for contrast, `ADD` of immediate `1` does end in the
mask). -/
theorem c4_counterexample :
    binT Dom.top ⟨.ADD, ⟨3⟩, .imm 0, false⟩ = Dom.top
    ∧ isMask32 (binT Dom.top ⟨.ADD, ⟨3⟩, .imm 0, false⟩) ⟨3⟩ = false
    ∧ isMask32 (binT Dom.top ⟨.ADD, ⟨3⟩, .imm 1, false⟩) ⟨3⟩ = true := by
  refine ⟨rfl, rfl, rfl⟩

/-- Claim C5: for a register-operand `SUB`, the transformer joins three
branches, and in the branch where the source is a pointer of kind
strictly below the shared threshold and of the same kind as the
destination, the destination becomes numeric: its kind variable is
assigned `T_NUM`, its value is assigned `dst.offset - src.offset`
(semantically: every environment of that branch carries a numeric kind
and the offset difference of a pre-environment satisfying the branch
conditions), and its offset variable is havoced. -/
theorem c5_sub_pointer_difference (inv : Dom) (dst src : Reg) (is64 : Bool) :
    (binT inv ⟨.SUB, dst, .reg src, is64⟩ =
      (let bothNum := ((inv.meet (.eqC (.v (Var.rtyp src.v)) (.c T_NUM))).meet
          (.eqC (.v (Var.rtyp dst.v)) (.c T_NUM))).applyOp
          .SUB (Var.rval dst.v) (Var.rval dst.v) (.var (Var.rval src.v)) true
       let ptrDst := (((inv.meet (.eqC (.v (Var.rtyp src.v)) (.c T_NUM))).meet
          (isPointerCst dst)).applyOp
          .SUB (Var.rval dst.v) (Var.rval dst.v) (.var (Var.rval src.v)) true).applyOp
          .SUB (Var.roff dst.v) (Var.roff dst.v) (.var (Var.rval src.v)) false
       let j := ((subPtrDiffBranch inv dst src).join bothNum).join ptrDst
       if is64 then j
       else j.applyOp .AND (Var.rval dst.v) (Var.rval dst.v) (.num 4294967295) false))
    ∧ (∀ ρ ∈ gamma (subPtrDiffBranch inv dst src),
        ρ (Var.rtyp dst.v) = T_NUM ∧
        ∃ ρ₀, ρ₀ ∈ gamma inv ∧
          (isPointerCst src).holds ρ₀ = true ∧
          (Cst.lt (.v (Var.rtyp src.v)) (.c T_SHARED)).holds ρ₀ = true ∧
          ρ₀ (Var.rtyp src.v) = ρ₀ (Var.rtyp dst.v) ∧
          ρ (Var.rval dst.v) = ρ₀ (Var.roff dst.v) - ρ₀ (Var.roff src.v)) := by
  constructor
  · cases is64 <;> rfl
  · intro ρ hρ
    obtain ⟨ρa, ha, hagree⟩ := hρ
    obtain ⟨ρb, hb, hupd⟩ := ha
    obtain ⟨ρ₀, h0, hupd2⟩ := hb
    obtain ⟨⟨⟨h0inv, hc1⟩, hc2⟩, hc3⟩ := h0
    have htro : Var.rtyp dst.v ≠ Var.roff dst.v := by simp
    have hvro : Var.rval dst.v ≠ Var.roff dst.v := by simp
    have hvrt : Var.rval dst.v ≠ Var.rtyp dst.v := by simp
    constructor
    · rw [hagree _ htro, hupd]
      simp [LinExp.eval, LinExp.c, T_NUM]
    · refine ⟨ρ₀, h0inv, hc1, hc2, ?_, ?_⟩
      · simpa [Cst.holds, LinExp.eval, LinExp.v] using hc3
      · rw [hagree _ hvro, hupd]
        rw [Function.update_noteq hvrt]
        rw [hupd2]
        simp [Binop.sem, Operand.eval, Function.update_same]

/-- Claim C8 evaluation at the failing input: after a single
`add(label, Redundant, msg)` on the empty database, `total_redundant()`
reports `0` (it reads the `Unreachable` total) although one `Redundant`
diagnostic was added; dually, a single `Unreachable` add makes
`total_redundant()` report `1`.  The other three totals count their own
kinds. -/
theorem c8_total_redundant_bug :
    (ChecksDb.ofAdds [(0, .redundant)]).totalRedundant = 0
    ∧ countKind [(0, .redundant)] .redundant = 1
    ∧ (ChecksDb.ofAdds [(0, .unreachable)]).totalRedundant = 1
    ∧ countKind [(0, .unreachable)] .redundant = 0
    ∧ (ChecksDb.ofAdds [(0, .redundant)]).totalError = 0
    ∧ (ChecksDb.ofAdds [(0, .redundant)]).totalWarning = 0
    ∧ (ChecksDb.ofAdds [(0, .redundant)]).totalUnreachable = 0 := by
  decide

lemma vdb_foldl_warnings (ops : List DbOp) :
    ∀ d : VChecksDb, (ops.foldl VChecksDb.apply d).totalWarnings =
      d.totalWarnings + ops.countP DbOp.isWarnLike := by
  induction ops with
  | nil => intro d; simp [List.countP, List.countP.go]
  | cons o t ih =>
    intro d
    rw [List.foldl_cons, ih, List.countP_cons]
    cases o <;> simp [VChecksDb.apply, DbOp.isWarnLike] <;> omega

lemma vdb_foldl_unreachable (ops : List DbOp) :
    ∀ d : VChecksDb, (ops.foldl VChecksDb.apply d).totalUnreachable =
      d.totalUnreachable + ops.countP DbOp.isUnreachable := by
  induction ops with
  | nil => intro d; simp [List.countP, List.countP.go]
  | cons o t ih =>
    intro d
    rw [List.foldl_cons, ih, List.countP_cons]
    cases o <;> simp [VChecksDb.apply, DbOp.isUnreachable] <;> omega

/-- Claim C9: `run_ebpf_analysis` reports success exactly when the
report's warning total is zero; that total counts the `add_warning` and
`add_nontermination` operations, while `add_unreachable` operations
count only toward the unreachable total — so a report built from
unreachable events alone always passes. -/
theorem c9_pass_iff_no_warnings (ops : List DbOp) (labels : List Nat) :
    (runEbpfAnalysisResult ops = true ↔ (VChecksDb.ofOps ops).totalWarnings = 0)
    ∧ (VChecksDb.ofOps ops).totalWarnings = ops.countP DbOp.isWarnLike
    ∧ (VChecksDb.ofOps ops).totalUnreachable = ops.countP DbOp.isUnreachable
    ∧ runEbpfAnalysisResult (labels.map DbOp.unreach) = true := by
  refine ⟨?_, ?_, ?_, ?_⟩
  · simp [runEbpfAnalysisResult]
  · simpa [VChecksDb.ofOps, VChecksDb.empty] using vdb_foldl_warnings ops VChecksDb.empty
  · simpa [VChecksDb.ofOps, VChecksDb.empty] using vdb_foldl_unreachable ops VChecksDb.empty
  · have h := vdb_foldl_warnings (labels.map DbOp.unreach) VChecksDb.empty
    have hc : (labels.map DbOp.unreach).countP DbOp.isWarnLike = 0 := by
      simp [List.countP_eq_zero]
      intro x hx
      simp [DbOp.isWarnLike]
    have h0 : (VChecksDb.ofOps (labels.map DbOp.unreach)).totalWarnings = 0 := by
      rw [hc] at h
      simpa [VChecksDb.ofOps, VChecksDb.empty] using h
    simp [runEbpfAnalysisResult, h0]

lemma callSingles_anything_privileged (singles : List ArgSingle) :
    ∀ acc : List AssertK × Option Reg, (∀ a ∈ singles, a.kind = .ANYTHING) →
      singles.foldl (callSingleStep .KPROBE) acc = acc := by
  induction singles with
  | nil => intro acc _; rfl
  | cons s t ih =>
    intro acc h
    rw [List.foldl_cons]
    have hs : s.kind = .ANYTHING := h s (by simp)
    have hstep : callSingleStep .KPROBE acc s = acc := by
      simp [callSingleStep, hs, isPrivileged]
    rw [hstep]
    exact ih acc fun a ha => h a (by simp [ha])

/-- Claim C10 (amended): for `KPROBE` (privileged) programs no
assertions are injected for jump and assume conditions, no numeric
`TypeConstraint` for `ANYTHING` call arguments, and no stored-value
`TypeConstraint` / `ValidStore` for memory stores; for every other
program type those assertions are emitted — for conditions and
`ANYTHING` arguments unconditionally, and for the stored value of
register-valued stores whose base register is not r10 (stores through
r10 are stack stores and never carry stored-value assertions). -/
theorem c10_privileged_suppression (t : BpfProgType) (cond : Condition)
    (singles : List ArgSingle) (arg : ArgSingle) (base valreg : Reg) (w off : Int)
    (ht : t ≠ .KPROBE) (hall : ∀ a ∈ singles, a.kind = .ANYTHING)
    (hbase : base.v ≠ 10) (harg : arg.kind = .ANYTHING) :
    explicate .KPROBE cond = []
    ∧ jmpAsserts .KPROBE (some cond) = []
    ∧ callAsserts .KPROBE singles [] = []
    ∧ memAsserts .KPROBE false base off w (.reg valreg) =
        [.typeConstraint base .ptr,
         .validAccess {reg := base, offset := off, width := .imm w}]
    ∧ explicate t cond ≠ []
    ∧ callAsserts t [arg] [] = [.typeConstraint arg.reg .num]
    ∧ memAsserts t false base off w (.reg valreg) =
        [.typeConstraint base .ptr,
         .validAccess {reg := base, offset := off, width := .imm w}] ++
          (if w ≠ 8 then [.typeConstraint valreg .num] else [.validStore base valreg]) := by
  have hpriv : isPrivileged t = false := by
    simp [isPrivileged]
    exact ht
  refine ⟨?_, ?_, ?_, ?_, ?_, ?_, ?_⟩
  · simp [explicate, isPrivileged]
  · simp [jmpAsserts, explicate, isPrivileged]
  · simp [callAsserts, callSingles_anything_privileged singles ([], none) hall]
  · simp [memAsserts, hbase, isPrivileged]
  · simp [explicate, hpriv]
  · simp [callAsserts, callSingleStep, harg, hpriv]
  · simp [memAsserts, hbase, hpriv]

/-- Claim C10 counterexample: a non-privileged (`XDP`) register-valued
store through r10 carries neither a `ValidStore` nor a stored-value
numeric `TypeConstraint` — contradicting the claim's "for every other
program type those assertions are emitted" for memory stores. -/
theorem c10_counterexample :
    memAsserts .XDP false ⟨10⟩ (-8) 8 (.reg ⟨1⟩) =
      [.validAccess {reg := ⟨10⟩, offset := -8, width := .imm 8}]
    ∧ AssertK.validStore ⟨10⟩ ⟨1⟩ ∉ memAsserts .XDP false ⟨10⟩ (-8) 8 (.reg ⟨1⟩)
    ∧ AssertK.typeConstraint ⟨1⟩ .num ∉ memAsserts .XDP false ⟨10⟩ (-8) 8 (.reg ⟨1⟩) := by
  refine ⟨rfl, by decide, by decide⟩

/-- Claim C10 witness: the amended theorem applied at `XDP`, a concrete
condition, an `ANYTHING` argument and a register store through r3. -/
theorem c10_witness :
    (BpfProgType.XDP ≠ .KPROBE)
    ∧ (∀ a ∈ ([] : List ArgSingle), a.kind = .ANYTHING)
    ∧ ((⟨3⟩ : Reg).v ≠ 10)
    ∧ ((⟨.ANYTHING, ⟨2⟩⟩ : ArgSingle).kind = .ANYTHING)
    ∧ (explicate .KPROBE ⟨.EQ, ⟨1⟩, .imm 0⟩ = []
       ∧ jmpAsserts .KPROBE (some ⟨.EQ, ⟨1⟩, .imm 0⟩) = []
       ∧ callAsserts .KPROBE [] [] = []
       ∧ memAsserts .KPROBE false ⟨3⟩ 0 8 (.reg ⟨1⟩) =
           [.typeConstraint ⟨3⟩ .ptr,
            .validAccess {reg := ⟨3⟩, offset := 0, width := .imm 8}]
       ∧ explicate .XDP ⟨.EQ, ⟨1⟩, .imm 0⟩ ≠ []
       ∧ callAsserts .XDP [⟨.ANYTHING, ⟨2⟩⟩] [] = [.typeConstraint ⟨2⟩ .num]
       ∧ memAsserts .XDP false ⟨3⟩ 0 8 (.reg ⟨1⟩) =
           [.typeConstraint ⟨3⟩ .ptr,
            .validAccess {reg := ⟨3⟩, offset := 0, width := .imm 8}] ++
             (if (8 : Int) ≠ 8 then [.typeConstraint ⟨1⟩ .num]
              else [.validStore ⟨3⟩ ⟨1⟩])) :=
  ⟨by decide, by simp, by decide, rfl,
   c10_privileged_suppression .XDP ⟨.EQ, ⟨1⟩, .imm 0⟩ [] ⟨.ANYTHING, ⟨2⟩⟩ ⟨3⟩ ⟨1⟩ 8 0
     (by decide) (by simp) (by decide) rfl⟩

/-- Claim C6 (amended): the checker's `require` emits no diagnostic on a
bottom state; a contradiction diagnostic exactly for a (syntactically)
provably-false assertion; and otherwise a warning exactly when the
pre-invariant does not entail the assertion — both when the assertion
intersects the invariant and when the invariant contradicts it (the
source warns in both of its final branches).  An unreachable event is
recorded exactly when the state was non-bottom before a statement and is
bottom after it (or the statement itself emitted one). -/
theorem c6_checker_diagnostics (St : Type) (isBot : St → Bool) (isContra : Cst → Bool)
    (entail intersect : St → Cst → Bool) (assumeCst : St → Cst → St)
    (inv : St) (cst : Cst) (m : Msg) (f : St → St × List Diag) :
    (checkerRequire isBot isContra entail intersect assumeCst inv cst m =
      (assumeCst inv cst,
        if isBot inv then []
        else if isContra cst then [Diag.contra m]
        else if entail inv cst then [] else [Diag.warn m]))
    ∧ (Diag.unreach ∈ (checkerStep isBot f inv).2 ↔
        (Diag.unreach ∈ (f inv).2 ∨ (isBot inv = false ∧ isBot (f inv).1 = true))) := by
  constructor
  · unfold checkerRequire
    split_ifs <;> rfl
  · unfold checkerStep
    simp only [List.mem_append]
    constructor
    · rintro (h | h)
      · exact Or.inl h
      · right
        by_cases hb : isBot inv = false ∧ isBot (f inv).1 = true
        · exact hb
        · simp [hb] at h
    · rintro (h | h)
      · exact Or.inl h
      · right
        simp [h]

/-- Claim C6 counterexample: a non-bottom invariant (`r0.value = 0`)
that contradicts the assertion `r0.value >= 1` (no intersection) still
gets a warning — the claim predicts a warning only when the invariant
neither entails nor contradicts the assertion. -/
theorem c6_counterexample :
    (checkerRequire envIsBot Cst.isContra envEntail envIntersect envMeet
        c6inv c6cst .typeCst).2 = [Diag.warn .typeCst]
    ∧ envIntersect c6inv c6cst = false
    ∧ envIsBot c6inv = false
    ∧ Cst.isContra c6cst = false
    ∧ envEntail c6inv c6cst = false := by
  refine ⟨rfl, rfl, rfl, rfl, rfl⟩

/-- Claim C1 (amended): the `ValidAccess` transformer performs, on four
conditioned copies of the state, exactly the bounds checks split by
region kind — PACKET: `[meta_offset, packet_size]`; STACK:
`[0, STACK_SIZE]`; CTX: `[0, ctx_size]`; SHARED: `[0, r.type]` — except
that for a width of immediate `0` (a comparison check) the PACKET upper
bound is `MAX_PACKET_OFF` instead of `packet_size` and the state is
rejoined without the or-null / pointer requirement; with `or_null` set
(and nonzero width) it additionally requires `r.value = 0` on the copy
assuming `r.kind = NUM` and admits that copy into the result. -/
theorem c1_valid_access_checks (inv : Dom) (r : Reg) (off : Int) (width : Value)
    (onull : Bool) (cs : Int) :
    tValidAccess domOpsRec cs inv ⟨r, off, width, onull⟩ =
      (let t := Var.rtyp r.v
       let lb : LinExp := ⟨[Var.roff r.v], off⟩
       let ub : LinExp :=
         match width with
         | .imm w => ⟨[Var.roff r.v], off + w⟩
         | .reg wr => ⟨[Var.roff r.v, Var.rval wr.v], off⟩
       let isCmp : Bool := width == Value.imm 0
       let pCst : Cst :=
         if isCmp then .le ub (.c MAX_PACKET_OFF) else .le ub (.v Var.packetSize)
       let dp0 := inv.meet (.eqC (.v t) (.c T_PACKET))
       let dp1 := dp0.meet (Cst.ge lb (.v Var.metaOffset))
       let dp2 := dp1.meet pCst
       let ds0 := inv.meet (.eqC (.v t) (.c T_STACK))
       let ds1 := ds0.meet (Cst.ge lb (.c 0))
       let ds2 := ds1.meet (.le ub (.c STACK_SIZE))
       let dh0 := inv.meet (Cst.gt (.v t) (.c T_SHARED))
       let dh1 := dh0.meet (Cst.ge lb (.c 0))
       let dh2 := dh1.meet (.le ub (.v t))
       let dc0 := inv.meet (.eqC (.v t) (.c T_CTX))
       let dc1 := dc0.meet (Cst.ge lb (.c 0))
       let dc2 := dc1.meet (.le ub (.c cs))
       let assumePtr := ((dp2.join ds2).join dh2).join dc2
       let bounds : List (Dom × Msg × Cst) :=
         [(dp0, .lowerPacket, Cst.ge lb (.v Var.metaOffset)),
          (dp1, (if isCmp then Msg.upperPacketCmp else Msg.upperPacket), pCst),
          (ds0, .lowerStack, Cst.ge lb (.c 0)),
          (ds1, .upperStack, .le ub (.c STACK_SIZE)),
          (dh0, .lowerShared, Cst.ge lb (.c 0)),
          (dh1, .upperShared, .le ub (.v t)),
          (dc0, .lowerCtx, Cst.ge lb (.c 0)),
          (dc1, .upperCtx, .le ub (.c cs))]
       if isCmp then (inv.join assumePtr, bounds)
       else if onull then
         let inv1 := inv.meet (.eqC (.v t) (.c T_NUM))
         ((inv1.meet (.eqC (.v (Var.rval r.v)) (.c 0))).join assumePtr,
          bounds ++ [(inv1, .ptrCompZero, .eqC (.v (Var.rval r.v)) (.c 0))])
       else
         (assumePtr, bounds ++ [(inv, .onlyPtrDeref, Cst.gt (.v t) (.c T_NUM))])) := by
  rcases width with w | wr
  · by_cases hw : w = 0
    · subst hw
      cases onull <;> rfl
    · have hcmp : (Value.imm w == Value.imm 0) = false := by
        simp [hw]
      cases onull <;>
        simp [tValidAccess, domOpsRec, checkAccessPacket, checkAccessStack,
          checkAccessShared, checkAccessContext, hcmp]
  · cases onull <;> rfl

/-- Claim C1 counterexample: for a `ValidAccess` of width immediate `0`
the packet-branch upper bound is checked against the constant
`MAX_PACKET_OFF` (65535) and no check against the `packet_size` variable
is emitted — the claim as stated requires `r.offset+off+w <=
packet_size` for every width, including `0`. -/
theorem c1_counterexample :
    Cst.le ⟨[Var.roff 1], 0⟩ (.v Var.packetSize) ∉
      ((tValidAccess domOpsRec 64 Dom.top {reg := ⟨1⟩}).2.map fun e => e.2.2)
    ∧ Cst.le ⟨[Var.roff 1], 0⟩ (.c MAX_PACKET_OFF) ∈
      ((tValidAccess domOpsRec 64 Dom.top {reg := ⟨1⟩}).2.map fun e => e.2.2) := by
  constructor
  · decide
  · decide

lemma mem_gamma_meet {d : Dom} {c : Cst} {ρ : Env} :
    ρ ∈ gamma (d.meet c) ↔ ρ ∈ gamma d ∧ c.holds ρ = true := Iff.rfl

lemma mem_gamma_assign_const {d : Dom} {x : Var} {k : Int} {ρ : Env} :
    ρ ∈ gamma (d.assign x ⟨[], k⟩) ↔
      ρ x = k ∧ ∃ ρ₀, ρ₀ ∈ gamma d ∧ ∀ y, y ≠ x → ρ y = ρ₀ y := by
  simp only [gamma, Set.mem_setOf_eq]
  constructor
  · rintro ⟨ρ₀, h0, rfl⟩
    refine ⟨by simp [LinExp.eval, LinExp.c], ρ₀, h0, ?_⟩
    intro y hy
    exact Function.update_noteq hy _ _
  · rintro ⟨hk, ρ₀, h0, hagree⟩
    refine ⟨ρ₀, h0, ?_⟩
    funext y
    by_cases hy : y = x
    · subst hy
      simp [LinExp.eval, LinExp.c, Function.update_same, hk]
    · rw [Function.update_noteq hy]
      exact hagree y hy
/-- Claim C2 (amended): the entry state constrains r10 to
`type = STACK`, `offset = STACK_SIZE`, `value >= STACK_SIZE`; r1 to
`type = CTX`, `offset = 0`, `value` in `[1, PTR_MAX]`; the packet size
to `[0, MAX_PACKET_OFF)`; and the meta offset to `[-4098, 0]` when the
descriptor has a meta field and to exactly `0` otherwise — and
constrains nothing else: the kind variables of r0 and r2..r9 are left
completely unconstrained rather than set to `UNINIT`. -/
theorem c2_setup_entry_characterization (desc : CtxDescr) :
    gamma (setupEntry desc) =
      {ρ : Env |
        STACK_SIZE ≤ ρ (Var.rval 10) ∧ ρ (Var.roff 10) = STACK_SIZE ∧
        ρ (Var.rtyp 10) = T_STACK ∧
        1 ≤ ρ (Var.rval 1) ∧ ρ (Var.rval 1) ≤ PTR_MAX ∧ ρ (Var.roff 1) = 0 ∧
        ρ (Var.rtyp 1) = T_CTX ∧
        0 ≤ ρ Var.packetSize ∧ ρ Var.packetSize < MAX_PACKET_OFF ∧
        (if 0 ≤ desc.meta then ρ Var.metaOffset ≤ 0 ∧ -4098 ≤ ρ Var.metaOffset
         else ρ Var.metaOffset = 0)} := by
  ext ρ
  simp only [Set.mem_setOf_eq]
  by_cases hm : 0 ≤ desc.meta
  · rw [if_pos hm]
    simp only [setupEntry, if_pos hm, mem_gamma_meet, mem_gamma_assign_const,
      Cst.holds, Cst.ge, Cst.lt, LinExp.eval, LinExp.v, LinExp.c, LinExp.addK,
      List.map_cons, List.map_nil, List.sum_cons, List.sum_nil, add_zero, zero_add,
      decide_eq_true_eq]
    constructor
    · intro h
      obtain ⟨⟨⟨⟨hA, hps1⟩, hps2⟩, hm1⟩, hm2⟩ := h
      obtain ⟨ht1, ρa, hB, hρa⟩ := hA
      obtain ⟨ho1, ρb, hC, hab⟩ := hB
      obtain ⟨⟨hD, hb1⟩, hb2⟩ := hC
      obtain ⟨ht10, ρc, hE, hbc⟩ := hD
      obtain ⟨ho10, ρd, hF, hcd⟩ := hE
      obtain ⟨-, hv10⟩ := hF
      have e10v : ρ (Var.rval 10) = ρd (Var.rval 10) := by
        rw [hρa _ (by decide), hab _ (by decide), hbc _ (by decide), hcd _ (by decide)]
      have e10o : ρ (Var.roff 10) = ρc (Var.roff 10) := by
        rw [hρa _ (by decide), hab _ (by decide), hbc _ (by decide)]
      have e10t : ρ (Var.rtyp 10) = ρb (Var.rtyp 10) := by
        rw [hρa _ (by decide), hab _ (by decide)]
      have e1v : ρ (Var.rval 1) = ρb (Var.rval 1) := by
        rw [hρa _ (by decide), hab _ (by decide)]
      have e1o : ρ (Var.roff 1) = ρa (Var.roff 1) := hρa _ (by decide)
      refine ⟨by omega, by omega, by omega, by omega, by omega, by omega, ht1,
        hps1, by omega, hm1, hm2⟩
    · rintro ⟨h1, h2, h3, h4, h5, h6, h7, h8, h9, h10, h11⟩
      exact ⟨⟨⟨⟨⟨h7, ρ, ⟨⟨h6, ρ, ⟨⟨⟨⟨h3, ρ, ⟨⟨h2, ρ, ⟨⟨trivial, h1⟩,
        fun y _ => rfl⟩⟩, fun y _ => rfl⟩⟩, h4⟩, h5⟩, fun y _ => rfl⟩⟩,
        fun y _ => rfl⟩⟩, h8⟩, by omega⟩, h10⟩, h11⟩
  · rw [if_neg hm]
    simp only [setupEntry, if_neg hm, mem_gamma_meet, mem_gamma_assign_const,
      Cst.holds, Cst.ge, Cst.lt, LinExp.eval, LinExp.v, LinExp.c, LinExp.addK,
      List.map_cons, List.map_nil, List.sum_cons, List.sum_nil, add_zero, zero_add,
      decide_eq_true_eq]
    constructor
    · intro h
      obtain ⟨hmo, ρm, hX, hρmo⟩ := h
      obtain ⟨⟨hA, hps1⟩, hps2⟩ := hX
      obtain ⟨ht1, ρa, hB, hρm⟩ := hA
      obtain ⟨ho1, ρb, hC, hab⟩ := hB
      obtain ⟨⟨hD, hb1⟩, hb2⟩ := hC
      obtain ⟨ht10, ρc, hE, hbc⟩ := hD
      obtain ⟨ho10, ρd, hF, hcd⟩ := hE
      obtain ⟨-, hv10⟩ := hF
      have e10v : ρ (Var.rval 10) = ρd (Var.rval 10) := by
        rw [hρmo _ (by decide), hρm _ (by decide), hab _ (by decide),
          hbc _ (by decide), hcd _ (by decide)]
      have e10o : ρ (Var.roff 10) = ρc (Var.roff 10) := by
        rw [hρmo _ (by decide), hρm _ (by decide), hab _ (by decide), hbc _ (by decide)]
      have e10t : ρ (Var.rtyp 10) = ρb (Var.rtyp 10) := by
        rw [hρmo _ (by decide), hρm _ (by decide), hab _ (by decide)]
      have e1v : ρ (Var.rval 1) = ρb (Var.rval 1) := by
        rw [hρmo _ (by decide), hρm _ (by decide), hab _ (by decide)]
      have e1o : ρ (Var.roff 1) = ρa (Var.roff 1) := by
        rw [hρmo _ (by decide), hρm _ (by decide)]
      have e1t : ρ (Var.rtyp 1) = ρm (Var.rtyp 1) := hρmo _ (by decide)
      have eps : ρ Var.packetSize = ρm Var.packetSize := hρmo _ (by decide)
      refine ⟨by omega, by omega, by omega, by omega, by omega, by omega, by omega,
        by omega, by omega, hmo⟩
    · rintro ⟨h1, h2, h3, h4, h5, h6, h7, h8, h9, h10⟩
      exact ⟨h10, ρ, ⟨⟨⟨⟨h7, ρ, ⟨⟨h6, ρ, ⟨⟨⟨⟨h3, ρ, ⟨⟨h2, ρ, ⟨⟨trivial, h1⟩,
        fun y _ => rfl⟩⟩, fun y _ => rfl⟩⟩, h4⟩, h5⟩, fun y _ => rfl⟩⟩,
        fun y _ => rfl⟩⟩, h8⟩, by omega⟩, fun y _ => rfl⟩⟩

/-- Claim C2 counterexample: an environment satisfying the entry state
whose r0 kind variable is `77` — `setup_entry` never assigns `UNINIT`
(or anything else) to the kind variables of r0, r2..r9, contradicting
the claim's last conjunct. -/
theorem c2_counterexample :
    c2env ∈ gamma (setupEntry ⟨20, 0, 4, 8⟩) ∧ c2env (Var.rtyp 0) ≠ T_UNINIT := by
  constructor
  · simp only [setupEntry, mem_gamma_meet, mem_gamma_assign_const,
      Cst.holds, Cst.ge, Cst.lt, LinExp.eval, LinExp.v, LinExp.c, LinExp.addK,
      List.map_cons, List.map_nil, List.sum_cons, List.sum_nil, add_zero, zero_add,
      decide_eq_true_eq, if_pos (by decide : (0 : Int) ≤ (8 : Int))]
    exact ⟨⟨⟨⟨⟨by decide, c2env, ⟨⟨by decide, c2env, ⟨⟨⟨⟨by decide, c2env,
      ⟨⟨by decide, c2env, ⟨⟨trivial, by decide⟩, fun y _ => rfl⟩⟩,
      fun y _ => rfl⟩⟩, by decide⟩, by decide⟩, fun y _ => rfl⟩⟩,
      fun y _ => rfl⟩⟩, by decide⟩, by decide⟩, by decide⟩, by decide⟩
  · decide
lemma gamma_foldl_meet (l : List Cst) :
    ∀ d : Dom, gamma (l.foldl Dom.meet d) =
      {ρ | ρ ∈ gamma d ∧ ∀ c ∈ l, c.holds ρ = true} := by
  induction l with
  | nil =>
    intro d
    ext ρ
    simp
  | cons c t ih =>
    intro d
    rw [List.foldl_cons, ih]
    ext ρ
    simp only [Set.mem_setOf_eq, mem_gamma_meet, List.mem_cons]
    constructor
    · rintro ⟨⟨hd, hc⟩, ht⟩
      exact ⟨hd, fun c' hc' => hc'.elim (fun he => he ▸ hc) (ht c')⟩
    · rintro ⟨hd, hall⟩
      exact ⟨⟨hd, hall c (Or.inl rfl)⟩, fun c' hc' => hall c' (Or.inr hc')⟩

set_option maxHeartbeats 1000000 in
/-- Claim C3 (amended): for an `Assume` comparing two registers the
transformer joins four conditioned sub-states: the equal-kind pointer
copy carrying the offset ordering constraint, the both-numeric copy —
which carries the numeric value constraints only for the non-unsigned
operators (for `GE`, `LE`, `GT`, `LT` no value constraint is conjoined,
per the source's `is_unsigned_cmp` guard annotated `FIX unsigned`) —
and the two kinds-differ copies, each assuming one side is a pointer. -/
theorem c3_assume_reg_branches (inv : Dom) (op : CondOp) (dst src : Reg) (d : Dom)
    (h : assumeRegT inv op dst src = some d) :
    gamma d =
      (gamma inv ∩ {ρ | ρ (Var.rtyp dst.v) = ρ (Var.rtyp src.v) ∧
          T_CTX ≤ ρ (Var.rtyp dst.v) ∧
          (jmpToCstOffsetsReg op (Var.roff dst.v) (Var.roff src.v)).holds ρ = true})
      ∪ (gamma inv ∩ {ρ | ρ (Var.rtyp dst.v) = ρ (Var.rtyp src.v) ∧
          ρ (Var.rtyp dst.v) = T_NUM ∧
          (isUnsignedCmp op = true ∨
            ∀ c ∈ (jmpToCstReg op (Var.rval dst.v) (Var.rval src.v)).getD [],
              c.holds ρ = true)})
      ∪ (gamma inv ∩ {ρ | ρ (Var.rtyp dst.v) ≠ ρ (Var.rtyp src.v) ∧
          T_CTX ≤ ρ (Var.rtyp dst.v)})
      ∪ (gamma inv ∩ {ρ | ρ (Var.rtyp dst.v) ≠ ρ (Var.rtyp src.v) ∧
          T_CTX ≤ ρ (Var.rtyp src.v)}) := by
  cases hu : isUnsignedCmp op with
  | true =>
    simp only [assumeRegT, hu, if_true, List.foldl_nil, Option.some.injEq] at h
    subst h
    ext ρ
    simp only [gamma, Set.mem_union, Set.mem_inter_iff, Set.mem_setOf_eq,
      isPointerCst, Cst.ge, Cst.holds, LinExp.eval, LinExp.v, LinExp.c,
      List.map_cons, List.map_nil, List.sum_cons, List.sum_nil, add_zero, zero_add,
      decide_eq_true_eq, hu]
    tauto
  | false =>
    cases hj : jmpToCstReg op (Var.rval dst.v) (Var.rval src.v) with
    | none =>
      simp only [assumeRegT, hu, hj, Bool.false_eq_true, if_false,
        reduceCtorEq] at h
    | some l =>
      simp only [assumeRegT, hu, hj, Bool.false_eq_true, if_false,
        Option.some.injEq] at h
      subst h
      ext ρ
      simp only [gamma, gamma_foldl_meet, Set.mem_union, Set.mem_inter_iff,
        Set.mem_setOf_eq, isPointerCst, Cst.ge, Cst.holds, LinExp.eval, LinExp.v,
        LinExp.c, List.map_cons, List.map_nil, List.sum_cons, List.sum_nil,
        add_zero, zero_add, decide_eq_true_eq, hu, hj, Option.getD_some]
      tauto

/-- Claim C3 counterexample: for the unsigned comparison `GE` the
transformer's output contains an environment in which both registers are
numeric of equal kind but `r1.value < r2.value` — under the claim the
both-`NUM` sub-state would have the `GE` ordering constraint conjoined
onto the value variables and would exclude it. -/
theorem c3_counterexample :
    (assumeRegT Dom.top .GE ⟨1⟩ ⟨2⟩).elim False (fun d => c3env ∈ gamma d)
    ∧ c3env (Var.rtyp 1) = T_NUM ∧ c3env (Var.rtyp 2) = T_NUM
    ∧ ¬(c3env (Var.rval 2) ≤ c3env (Var.rval 1))
    ∧ ¬(T_CTX ≤ c3env (Var.rtyp 1)) := by
  refine ⟨?_, by decide, by decide, by decide, by decide⟩
  exact Or.inl (Or.inl (Or.inr ⟨⟨trivial, by decide⟩, by decide⟩))


/-- Claim C3 witness: the amended theorem applied to the concrete
condition `r1 == r2` on the top state. -/
theorem c3_witness :
    assumeRegT Dom.top .EQ ⟨1⟩ ⟨2⟩ = some c3eqTree
    ∧ gamma c3eqTree =
      (gamma Dom.top ∩ {ρ | ρ (Var.rtyp 1) = ρ (Var.rtyp 2) ∧
          T_CTX ≤ ρ (Var.rtyp 1) ∧
          (jmpToCstOffsetsReg .EQ (Var.roff 1) (Var.roff 2)).holds ρ = true})
      ∪ (gamma Dom.top ∩ {ρ | ρ (Var.rtyp 1) = ρ (Var.rtyp 2) ∧
          ρ (Var.rtyp 1) = T_NUM ∧
          (isUnsignedCmp .EQ = true ∨
            ∀ c ∈ (jmpToCstReg .EQ (Var.rval 1) (Var.rval 2)).getD [],
              c.holds ρ = true)})
      ∪ (gamma Dom.top ∩ {ρ | ρ (Var.rtyp 1) ≠ ρ (Var.rtyp 2) ∧
          T_CTX ≤ ρ (Var.rtyp 1)})
      ∪ (gamma Dom.top ∩ {ρ | ρ (Var.rtyp 1) ≠ ρ (Var.rtyp 2) ∧
          T_CTX ≤ ρ (Var.rtyp 2)}) :=
  ⟨rfl, c3_assume_reg_branches Dom.top .EQ ⟨1⟩ ⟨2⟩ c3eqTree rfl⟩
lemma tValidAccess_cmp_shape {St Δ : Type} (O : TOps St Δ) (cs : Int) (inv : St)
    (r : Reg) :
    ∃ X D, tValidAccess O cs inv {reg := r} = (O.join inv X, D) :=
  ⟨_, _, rfl⟩


/-- Claim C7 (amended): for non-privileged program types, comparing a
register against an immediate injects a numeric `TypeConstraint` if and
only if the literal is nonzero; with literal `0` the injected assertions
contain no `TypeConstraint` at all (so no type-constraint warning can be
emitted), and with a nonzero literal the checker emits a warning for the
type constraint whenever the abstract state admits a pointer kind
(`>= T_CTX`) for the register. -/
theorem c7_zero_literal_type_constraint (t : BpfProgType) (l : Reg) (op : CondOp)
    (v : Int) (cs : Int) (S1 : List Env) (ρ : Env)
    (ht : t ≠ .KPROBE) (hmem : ρ ∈ S1) (hptr : T_CTX ≤ ρ (Var.rtyp l.v)) :
    (AssertK.typeConstraint l .num ∈ explicate t ⟨op, l, .imm v⟩ ↔ v ≠ 0)
    ∧ (v = 0 → ∀ a ∈ explicate t ⟨op, l, .imm v⟩, isTypeConstraintA a = false)
    ∧ (v ≠ 0 → Diag.warn .typeCst ∈ (checkAsserts cs S1 (explicate t ⟨op, l, .imm v⟩)).2) := by
  have hpriv : isPrivileged t = false := by
    simp [isPrivileged]
    exact ht
  refine ⟨?_, ?_, ?_⟩
  · by_cases hv : v = 0 <;> simp [explicate, hpriv, hv]
  · intro hv
    subst hv
    simp [explicate, hpriv, isTypeConstraintA]
  · intro hv
    have hexp : explicate t ⟨op, l, .imm v⟩ =
        [.validAccess {reg := l}, .typeConstraint l .num] := by
      simp [explicate, hpriv, hv]
    rw [hexp]
    obtain ⟨X, D, hva⟩ := tValidAccess_cmp_shape envOpsCheck cs S1 l
    have hjoin : envOpsCheck.join S1 X = S1 ++ X := rfl
    have hnum : Cst.holds (.eqC (.v (Var.rtyp l.v)) (.c T_NUM)) ρ = false := by
      simp only [Cst.holds, LinExp.eval, LinExp.v, LinExp.c, List.map_cons,
        List.map_nil, List.sum_cons, List.sum_nil, add_zero, zero_add,
        decide_eq_false_iff_not, T_NUM]
      have hptr2 : (-3 : Int) ≤ ρ (Var.rtyp l.v) := hptr
      omega
    have hbot : envIsBot (S1 ++ X) = false := by
      rcases S1 with _ | ⟨s0, S'⟩
      · exact absurd hmem (by simp)
      · rfl
    have hentail : envEntail (S1 ++ X) (.eqC (.v (Var.rtyp l.v)) (.c T_NUM)) = false := by
      rw [Bool.eq_false_iff]
      intro hall
      rw [envEntail, List.all_eq_true] at hall
      have := hall ρ (List.mem_append_left X hmem)
      rw [hnum] at this
      exact absurd this (by simp)
    have hr2 : (checkerRequire envIsBot Cst.isContra envEntail envIntersect envMeet
        (S1 ++ X) (.eqC (.v (Var.rtyp l.v)) (.c T_NUM)) .typeCst).2 =
        [Diag.warn .typeCst] := by
      rw [checkerRequire]
      rw [hbot, hentail]
      simp only [Bool.false_eq_true, if_false]
      have hcontra : Cst.isContra (Cst.eqC (.v (Var.rtyp l.v)) (.c T_NUM)) = false := rfl
      rw [hcontra]
      simp only [Bool.false_eq_true, if_false]
      split_ifs <;> rfl
    simp only [checkAsserts, List.foldl_cons, List.foldl_nil, tAssert]
    rw [hva]
    simp only [hjoin, tTypeConstraint]
    have : envOpsCheck.req (S1 ++ X) (.eqC (.v (Var.rtyp l.v)) (.c T_NUM)) .typeCst =
        checkerRequire envIsBot Cst.isContra envEntail envIntersect envMeet
          (S1 ++ X) (.eqC (.v (Var.rtyp l.v)) (.c T_NUM)) .typeCst := rfl
    rw [this, ]
    simp [hr2]

/-- Claim C7 witness: the amended theorem applied at `XDP`, condition
`r1 == 7`, and the one-environment state where r1 is a context
pointer. -/
theorem c7_witness :
    (BpfProgType.XDP ≠ .KPROBE)
    ∧ (c7env ∈ [c7env])
    ∧ (T_CTX ≤ c7env (Var.rtyp 1))
    ∧ ((AssertK.typeConstraint ⟨1⟩ .num ∈ explicate .XDP ⟨.EQ, ⟨1⟩, .imm 7⟩ ↔ (7 : Int) ≠ 0)
       ∧ ((7 : Int) = 0 → ∀ a ∈ explicate .XDP ⟨.EQ, ⟨1⟩, .imm 7⟩,
            isTypeConstraintA a = false)
       ∧ ((7 : Int) ≠ 0 → Diag.warn .typeCst ∈
            (checkAsserts 20 [c7env] (explicate .XDP ⟨.EQ, ⟨1⟩, .imm 7⟩)).2)) :=
  ⟨by decide, by simp, by decide,
   c7_zero_literal_type_constraint .XDP ⟨1⟩ .EQ 7 20 [c7env] c7env
     (by decide) (by simp) (by decide)⟩

/-- Claim C7 counterexample: for a privileged (`KPROBE`) program the
comparison `r1 == 5` injects no assertion at all, in particular no
numeric `TypeConstraint` — the claim's "if and only if the literal is
nonzero" fails as stated (it is restricted to non-privileged program
types in the amendment). -/
theorem c7_counterexample :
    explicate .KPROBE ⟨.EQ, ⟨1⟩, .imm 5⟩ = []
    ∧ AssertK.typeConstraint ⟨1⟩ .num ∉ explicate .KPROBE ⟨.EQ, ⟨1⟩, .imm 5⟩ :=
  ⟨rfl, by decide⟩

end Ebpf
